import Mathlib

/-!
Shallow embedding of `src/emnist_dl2prod/utils.py`: the EMNIST dataset
loader, the label mapper, the single-query serving evaluator and the
throughput driver.  Machine floats are modelled as exact rationals (`ℚ`),
numpy arrays as lists, the filesystem and the wall clock as explicit
parameters, and fallible Python code as `Except`.
-/

namespace EmnistUtils

/-- The fixed matrix file name, `EMNIST_FILENAME = 'emnist-byclass.mat'`. -/
def emnist_filename : String := "emnist-byclass.mat"

/-!  ## Dataset loader (`load_emnist`)

The Matlab archive stores each image as a flat 784-entry pixel vector.
`loadmat` returns the `(N, 784)` matrix Fortran-contiguous (Matlab files are
column-major) and `astype(np.float32)` keeps that memory order, so
`x.reshape((N, 28, 28), order='A')` traverses the flat storage in
column-major (Fortran) order: pixel `(row i, col j)` of image `n` is flat
entry `i + 28 * j` of image `n`.
-/

/-- Embedding of the source's reshape of one flat 784-pixel vector into a
28×28 image: `reshape((28, 28), order='A')` on the Fortran-contiguous
`loadmat` data, i.e. column-major traversal (`flat[i + 28*j]` at row `i`,
column `j`). -/
def reshape_colmajor (flat : List ℚ) : List (List ℚ) :=
  (List.range 28).map fun i => (List.range 28).map fun j => flat.getD (i + 28 * j) 0

/-- The naive row-major (C-order) reshape of a flat 784-pixel vector, the
alternative the spec warns about.  Stated from the spec's words for
comparison with `reshape_colmajor`; the source does not use it. -/
def reshape_rowmajor (flat : List ℚ) : List (List ℚ) :=
  (List.range 28).map fun i => (List.range 28).map fun j => flat.getD (28 * i + j) 0

/-- Transpose of a 28×28 image. -/
def transpose_img (m : List (List ℚ)) : List (List ℚ) :=
  (List.range 28).map fun i => (List.range 28).map fun j => (m.getD j []).getD i 0

/-- Content of the `emnist-byclass.mat` archive: nested structure with a
training bundle (flat images, labels), a test bundle, and the
label-to-ASCII mapping table. -/
structure EmnistArchive where
  trainImgs : List (List ℚ)
  trainLabels : List ℤ
  testImgs : List (List ℚ)
  testLabels : List ℤ
  mapping : List (ℤ × ℤ)
deriving Repr, DecidableEq

/-- The folder state `load_emnist` observes: whether
`os.path.isdir(emnist_folder_path)` and
`os.path.isfile(join(folder, EMNIST_FILENAME))` hold, and the content the
matrix file has (or would have after `download_emnist`). -/
structure FolderState where
  folderExists : Bool
  fileExists : Bool
  archive : EmnistArchive
deriving Repr, DecidableEq

/-- The five values `load_emnist` returns. -/
structure LoadResult where
  x_train : List (List (List ℚ))
  y_train : List ℤ
  x_test : List (List (List ℚ))
  y_test : List ℤ
  mapping : List (ℤ × ℤ)
deriving Repr, DecidableEq

/-- The parsing phase of `load_emnist`: `astype(np.float32)` (images are
already exact rationals here) and the `order='A'` reshape of each split's
images; labels and the mapping table pass through. -/
def parse_emnist (a : EmnistArchive) : LoadResult :=
  { x_train := a.trainImgs.map reshape_colmajor
    y_train := a.trainLabels
    x_test := a.testImgs.map reshape_colmajor
    y_test := a.testLabels
    mapping := a.mapping }

/-- The `FileNotFoundError` message raised when the data is absent and
download is deactivated:
`"Folder {} or file {} does not exist and download is deactivated".format(emnist_folder_path, EMNIST_FILENAME)`. -/
def not_found_msg (emnist_folder_path : String) : String :=
  "Folder " ++ emnist_folder_path ++ " or file " ++ emnist_filename ++
    " does not exist and download is deactivated"

/-- Embedding of `load_emnist(emnist_folder_path, download)`.  When folder
or file is missing it either downloads (after which the archive content is
available) or raises `FileNotFoundError`; then it parses the archive. -/
def load_emnist (fs : FolderState) (emnist_folder_path : String) (download : Bool) :
    Except String LoadResult :=
  if !(fs.folderExists && fs.fileExists) then
    if download then Except.ok (parse_emnist fs.archive)
    else Except.error (not_found_msg emnist_folder_path)
  else Except.ok (parse_emnist fs.archive)

/-!  ## Label mapper (`get_emnist_mapping`) -/

/-- Embedding of `get_emnist_mapping`: zips `range(10 + 2*26)` with the
characters of the ASCII ranges 48–57, 65–90 and 97–122, concatenated. -/
def get_emnist_mapping : List (ℕ × Char) :=
  let ascii_digits := (List.range 10).map fun i => 48 + i
  let ascii_uppercase_letters := (List.range 26).map fun i => 65 + i
  let ascii_lowercase_letters := (List.range 26).map fun i => 97 + i
  let digits := ascii_digits.map Char.ofNat
  let uppercase_letters := ascii_uppercase_letters.map Char.ofNat
  let lowercase_letters := ascii_lowercase_letters.map Char.ofNat
  List.zip (List.range (10 + 2 * 26)) (digits ++ uppercase_letters ++ lowercase_letters)

/-!  ## Shared pieces of the evaluator and the throughput driver -/

/-- The split selection both `eval_serving_performance` and
`eval_throughput` perform: `if dataset == 'train': ... else: ...` — any
string other than the exact `'train'` selects the test split. -/
def select_dataset {α : Type} (dataset : String) (train test : α) : α :=
  if dataset = "train" then train else test

/-- Python's `int()` on a rational value: truncation toward zero. -/
def pyInt (q : ℚ) : ℤ :=
  if 0 ≤ q then ⌊q⌋ else ⌈q⌉

/-- Python's `/` on numbers, raising `ZeroDivisionError` on a zero
denominator. -/
def pyDiv (a b : ℚ) : Except String ℚ :=
  if b = 0 then Except.error "ZeroDivisionError" else Except.ok (a / b)

/-- One recorded latency: `int((time.time() - start) * 1000000) / 1000`,
applied to the elapsed seconds of the request. -/
def record_duration (elapsedSeconds : ℚ) : ℚ :=
  ((pyInt (elapsedSeconds * 1000000) : ℚ)) / 1000

/-!  ## Model of numpy's global random generator

The generator itself lives in numpy, outside this repository; the claims
depend only on its shape: `np.random.seed(seed)` replaces the global state
with a value computed from the seed alone, and `np.random.choice(pool, n,
replace=False)` deterministically consumes that state, drawing distinct
elements.  A concrete linear-congruential update stands in for the
Mersenne Twister. -/

/-- Global numpy RNG state. -/
structure GlobalRng where
  state : ℕ
deriving Repr, DecidableEq

/-- One step of the stand-in generator (64-bit LCG). -/
def rng_step (s : ℕ) : ℕ :=
  (6364136223846793005 * s + 1442695040888963407) % 2 ^ 64

/-- `np.random.seed(seed)`: the global state after seeding is a function of
the seed alone; whatever state was installed before is discarded. -/
def np_random_seed (seed : ℕ) : GlobalRng :=
  ⟨rng_step (seed % 2 ^ 32)⟩

/-- `np.random.choice(pool, n, replace=False)`: repeatedly pick a position
from the remaining pool using the generator state and remove it. -/
def choice_no_replace : GlobalRng → List ℕ → ℕ → List ℕ × GlobalRng
  | g, _, 0 => ([], g)
  | g, [], _ + 1 => ([], g)
  | g, a :: l, n + 1 =>
    let k := g.state % (a :: l).length
    let x := (a :: l).getD k 0
    let r := choice_no_replace ⟨rng_step g.state⟩ ((a :: l).eraseIdx k) n
    (x :: r.1, r.2)

/-!  ## Single-query evaluator (`eval_serving_performance`)

The classification endpoint is external: it is a parameter mapping the
scaled flat image it is sent to the score vector found in the response's
`predictions` field (identical for the HTTP and the graphpipe transport,
which differ only on the wire).  The wall clock is a parameter giving each
request's elapsed seconds. -/

/-- `np.argmax` tail: scan the remaining scores, current index `i`, best
index `best_i`, best value `best_v`; only a strictly larger value replaces
the best, so ties keep the first occurrence. -/
def argmax_go : List ℚ → ℕ → ℕ → ℚ → ℕ
  | [], _, best_i, _ => best_i
  | x :: xs, i, best_i, best_v =>
    if best_v < x then argmax_go xs (i + 1) i x
    else argmax_go xs (i + 1) best_i best_v

/-- `np.argmax` on a score vector (first occurrence of the maximum). -/
def np_argmax (scores : List ℚ) : ℕ :=
  match scores with
  | [] => 0
  | x :: xs => argmax_go xs 1 0 x

/-- What one run of `eval_serving_performance` produces: the sampled
indices, the per-request predicted classes, the recorded latencies
(the returned `durations` list), the accuracy accumulator and the final
accuracy computation of the closing `print`. -/
structure EvalResult where
  sampled : List ℕ
  preds : List ℕ
  durations : List ℚ
  acc : ℕ
  accPrint : Except String ℚ

/-- Embedding of `eval_serving_performance`.  `g` is the global RNG state
before the call, `endpoint` the external classification service,
`elapsed i` the wall-clock seconds request `i` took; the four data arrays
are the loader's output for the two splits. -/
def eval_serving_performance (g : GlobalRng) (endpoint : List ℚ → List ℚ)
    (elapsed : ℕ → ℚ) (n_examples n_print_examples seed : ℕ) (dataset : String)
    (x_train x_test : List (List (List ℚ))) (y_train y_test : List ℤ) :
    EvalResult :=
  let x_eval := select_dataset dataset x_train x_test
  let y_eval := select_dataset dataset y_train y_test
  let g1 := np_random_seed seed
  let eval_img_indices := (choice_no_replace g1 (List.range x_eval.length) n_examples).1
  let preds := eval_img_indices.map fun idx =>
    np_argmax (endpoint (((x_eval.getD idx []).flatten).map fun p => p / 255))
  let durations := (List.range eval_img_indices.length).map fun i =>
    record_duration (elapsed i)
  let acc := (eval_img_indices.zip preds).foldl
    (fun a r => if (r.2 : ℤ) = y_eval.getD r.1 0 then a + 1 else a) 0
  { sampled := eval_img_indices
    preds := preds
    durations := durations
    acc := acc
    accPrint := pyDiv (acc : ℚ) (n_examples : ℚ) }

/-!  ## Throughput driver (`eval_throughput`)

The loop reads the wall clock once per iteration; the successive readings
after the initial `time.time()` are the `clock` trace.  Responses are
discarded, so the external endpoint does not appear.  Both transports run
the same counting loop. -/

/-- The driver's while loop: while the clock reading is within `end_time`,
slice `data[num_reqs : num_reqs + batch_size]` (short or empty past the
array end, as in Python), send it, and add `batch_size` to the counter.
Returns the counter and the batches sent. -/
def throughput_loop (data : List (List ℚ)) (batch_size : ℕ) (end_time : ℚ) :
    List ℚ → ℕ → List (List (List ℚ)) → ℕ × List (List (List ℚ))
  | [], num_reqs, sent => (num_reqs, sent)
  | t :: rest, num_reqs, sent =>
    if t ≤ end_time then
      let batch := (data.drop num_reqs).take batch_size
      throughput_loop data batch_size end_time rest (num_reqs + batch_size)
        (sent ++ [batch])
    else (num_reqs, sent)

/-- Embedding of `eval_throughput`.  `now` is the `time.time()` reading
used for `end_time = time.time() + duration`; `clock` the subsequent
readings of the loop condition.  Returns `num_reqs`, `reqs_per_second`
and the batches that were sent. -/
def eval_throughput (duration : ℚ) (batch_size : ℕ) (dataset : String)
    (use_graphpipe : Bool) (x_train x_test : List (List (List ℚ)))
    (now : ℚ) (clock : List ℚ) : ℕ × ℚ × List (List (List ℚ)) :=
  let dataSplit := select_dataset dataset x_train x_test
  let data := dataSplit.map fun img => (img.flatten).map fun p => p / 255
  let end_time := now + duration
  let r :=
    match use_graphpipe with
    | false => throughput_loop data batch_size end_time clock 0 []
    | true => throughput_loop data batch_size end_time clock 0 []
  (r.1, (r.1 : ℚ) / duration, r.2)

/-- Decidable equality for evaluator outcomes, used to evaluate concrete
runs. -/
instance : DecidableEq (Except String ℚ) := fun a b =>
  match a, b with
  | Except.error x, Except.error y =>
    if h : x = y then isTrue (by rw [h]) else isFalse (by simp [h])
  | Except.error _, Except.ok _ => isFalse (by simp)
  | Except.ok _, Except.error _ => isFalse (by simp)
  | Except.ok x, Except.ok y =>
    if h : x = y then isTrue (by rw [h]) else isFalse (by simp [h])

/-- A small concrete archive used to evaluate the loader on explicit
inputs. -/
def sampleArchive : EmnistArchive :=
  { trainImgs := [(List.range 784).map fun k => (k : ℚ)]
    trainLabels := [3]
    testImgs := [(List.range 784).map fun k => ((k : ℚ) / 2)]
    testLabels := [7]
    mapping := [(0, 48)] }

/-!  ## Theorems -/

/-- `getD` at an in-range position of a map over `List.range`. -/
theorem getD_map_range {α : Type} (f : ℕ → α) (d : α) {j n : ℕ} (h : j < n) :
    ((List.range n).map f).getD j d = f j := by
  have hl : j < ((List.range n).map f).length := by simpa using h
  rw [List.getD_eq_getElem _ _ hl]
  simp

/-- C3: the label mapper is a pure function whose output has exactly 62
entries keyed 0..61, with pairwise distinct values that are the characters
of `'0'-'9'`, `'A'-'Z'`, `'a'-'z'` concatenated in that order; in
particular `mapping[0] = '0'`, `mapping[9] = '9'`, `mapping[10] = 'A'`,
`mapping[35] = 'Z'`, `mapping[36] = 'a'`, `mapping[61] = 'z'`. -/
theorem get_emnist_mapping_spec :
    get_emnist_mapping.length = 62 ∧
    get_emnist_mapping.map Prod.fst = List.range 62 ∧
    (get_emnist_mapping.map Prod.snd).Nodup ∧
    get_emnist_mapping.map Prod.snd =
      "0123456789ABCDEFGHIJKLMNOPQRSTUVWXYZabcdefghijklmnopqrstuvwxyz".toList ∧
    get_emnist_mapping.lookup 0 = some '0' ∧
    get_emnist_mapping.lookup 9 = some '9' ∧
    get_emnist_mapping.lookup 10 = some 'A' ∧
    get_emnist_mapping.lookup 35 = some 'Z' ∧
    get_emnist_mapping.lookup 36 = some 'a' ∧
    get_emnist_mapping.lookup 61 = some 'z' := by
  decide

/-- C2: with the matrix file absent and download disallowed, `load_emnist`
fails with the not-found error, whose message spells out the folder path
and the expected file name; with the file present or download allowed it
returns the four parsed arrays plus the raw mapping table. -/
theorem load_emnist_error_handling :
    (∀ (fs : FolderState) (folder : String),
        (fs.folderExists && fs.fileExists) = false →
        load_emnist fs folder false = Except.error (not_found_msg folder)) ∧
    (∀ folder : String, not_found_msg folder =
        "Folder " ++ folder ++
          " or file emnist-byclass.mat does not exist and download is deactivated") ∧
    (∀ (fs : FolderState) (folder : String) (download : Bool),
        (fs.folderExists && fs.fileExists) = true ∨ download = true →
        load_emnist fs folder download = Except.ok (parse_emnist fs.archive)) := by
  refine ⟨?_, ?_, ?_⟩
  · intro fs folder h
    simp [load_emnist, h]
  · intro folder
    have h : " or file " ++ (emnist_filename ++
          " does not exist and download is deactivated") =
        " or file emnist-byclass.mat does not exist and download is deactivated" := by
      decide
    simp [not_found_msg, String.append_assoc, h]
  · intro fs folder download h
    rcases h with h | h
    · simp [load_emnist, h]
    · subst h
      cases hb : fs.folderExists && fs.fileExists <;> simp [load_emnist, hb]

/-- Witness for C2 at concrete folder states. -/
theorem load_emnist_error_handling_witness :
    load_emnist ⟨false, false, sampleArchive⟩ "emnist_data/" false =
      Except.error (not_found_msg "emnist_data/") ∧
    load_emnist ⟨true, true, sampleArchive⟩ "emnist_data/" false =
      Except.ok (parse_emnist sampleArchive) :=
  ⟨load_emnist_error_handling.1 ⟨false, false, sampleArchive⟩ "emnist_data/" rfl,
   load_emnist_error_handling.2.2 ⟨true, true, sampleArchive⟩ "emnist_data/" false
     (Or.inl rfl)⟩

/-- C7: every latency the evaluator records is the request's elapsed
seconds at microsecond precision, truncated (not rounded) to 3 decimal
digits of milliseconds: `floor(elapsed * 10^6) / 1000`, and entry `i` of
the returned `durations` list is exactly that value for request `i`. -/
theorem recorded_latency_floor :
    (∀ e : ℚ, 0 ≤ e → record_duration e = (⌊e * 1000000⌋ : ℚ) / 1000) ∧
    (∀ (g : GlobalRng) (ep : List ℚ → List ℚ) (el : ℕ → ℚ)
        (n np seed : ℕ) (ds : String) (xtr xte : List (List (List ℚ)))
        (ytr yte : List ℤ) (i : ℕ),
        i < (eval_serving_performance g ep el n np seed ds xtr xte ytr yte).sampled.length →
        (eval_serving_performance g ep el n np seed ds xtr xte ytr yte).durations.getD i 0 =
          record_duration (el i)) := by
  constructor
  · intro e he
    have h6 : (0 : ℚ) ≤ e * 1000000 := by positivity
    simp [record_duration, pyInt, h6]
  · intro g ep el n np seed ds xtr xte ytr yte i hi
    exact getD_map_range _ _ hi

/-- Witness for C7: elapsed 3/2000000 s (1.5 µs) records as
`floor(1.5)/1000 = 0.001` ms, and a concrete evaluator run records it at
position 0. -/
theorem recorded_latency_floor_witness :
    record_duration (3 / 2000000) = ((⌊(3 / 2000000 : ℚ) * 1000000⌋ : ℚ) / 1000) ∧
    record_duration (3 / 2000000) = 1 / 1000 ∧
    (eval_serving_performance ⟨0⟩ (fun _ => [1]) (fun _ => 3 / 2000000) 1 0 42 "test"
        [] [[[3]]] [] [5]).durations.getD 0 0 = record_duration (3 / 2000000) :=
  ⟨recorded_latency_floor.1 (3 / 2000000) (by norm_num),
   by norm_num [record_duration, pyInt],
   recorded_latency_floor.2 ⟨0⟩ (fun _ => [1]) (fun _ => 3 / 2000000) 1 0 42 "test"
     [] [[[3]]] [] [5] 0 (by decide)⟩

/-- C8: with `n_examples = 0` the evaluator's closing accuracy computation
divides by zero and raises `ZeroDivisionError`; with any positive
`n_examples` it produces a value — the zero case is not defended
internally. -/
theorem accuracy_division_by_zero :
    (∀ (g : GlobalRng) (ep : List ℚ → List ℚ) (el : ℕ → ℚ) (np seed : ℕ)
        (ds : String) (xtr xte : List (List (List ℚ))) (ytr yte : List ℤ),
        (eval_serving_performance g ep el 0 np seed ds xtr xte ytr yte).accPrint =
          Except.error "ZeroDivisionError") ∧
    (∀ (g : GlobalRng) (ep : List ℚ → List ℚ) (el : ℕ → ℚ) (n np seed : ℕ)
        (ds : String) (xtr xte : List (List (List ℚ))) (ytr yte : List ℤ),
        0 < n →
        ∃ q : ℚ, (eval_serving_performance g ep el n np seed ds xtr xte ytr yte).accPrint =
          Except.ok q) := by
  constructor
  · intro g ep el np seed ds xtr xte ytr yte
    simp [eval_serving_performance, pyDiv]
  · intro g ep el n np seed ds xtr xte ytr yte hn
    have hn' : ((n : ℚ)) ≠ 0 := by
      exact_mod_cast hn.ne'
    have hp : ∀ a : ℚ, ∃ q, pyDiv a (n : ℚ) = Except.ok q := by
      intro a
      exact ⟨a / n, by simp [pyDiv, hn']⟩
    exact hp _

/-- Witness for C8: a concrete zero-example run raises, a concrete
one-example run returns a value. -/
theorem accuracy_division_by_zero_witness :
    (eval_serving_performance ⟨0⟩ (fun _ => [1]) (fun _ => 0) 0 0 42 "test"
        [] [[[3]]] [] [5]).accPrint = Except.error "ZeroDivisionError" ∧
    ∃ q : ℚ, (eval_serving_performance ⟨0⟩ (fun _ => [1]) (fun _ => 0) 1 0 42 "test"
        [] [[[3]]] [] [5]).accPrint = Except.ok q :=
  ⟨accuracy_division_by_zero.1 ⟨0⟩ (fun _ => [1]) (fun _ => 0) 0 42 "test"
      [] [[[3]]] [] [5],
   accuracy_division_by_zero.2 ⟨0⟩ (fun _ => [1]) (fun _ => 0) 1 0 42 "test"
      [] [[[3]]] [] [5] (by decide)⟩

/-- C9: any dataset string other than the exact `'train'` makes both the
evaluator and the throughput driver behave exactly as with `'test'` — the
test split is selected silently and no error is raised. -/
theorem unknown_dataset_selects_test (dataset : String) (h : dataset ≠ "train") :
    (∀ (g : GlobalRng) (ep : List ℚ → List ℚ) (el : ℕ → ℚ) (n np seed : ℕ)
        (xtr xte : List (List (List ℚ))) (ytr yte : List ℤ),
        eval_serving_performance g ep el n np seed dataset xtr xte ytr yte =
          eval_serving_performance g ep el n np seed "test" xtr xte ytr yte) ∧
    (∀ (duration : ℚ) (bs : ℕ) (ug : Bool) (xtr xte : List (List (List ℚ)))
        (now : ℚ) (clock : List ℚ),
        eval_throughput duration bs dataset ug xtr xte now clock =
          eval_throughput duration bs "test" ug xtr xte now clock) := by
  have hsel : ∀ {α : Type} (a b : α),
      select_dataset dataset a b = select_dataset "test" a b := by
    intro α a b
    simp [select_dataset, h]
  constructor
  · intro g ep el n np seed xtr xte ytr yte
    simp only [eval_serving_performance, hsel]
  · intro duration bs ug xtr xte now clock
    simp only [eval_throughput, hsel]

/-- Witness for C9 at the misspelled split name `'Test'`. -/
theorem unknown_dataset_selects_test_witness :
    eval_serving_performance ⟨0⟩ (fun _ => [1]) (fun _ => 0) 1 0 42 "Test"
        [[[1]]] [[[3]]] [2] [5] =
      eval_serving_performance ⟨0⟩ (fun _ => [1]) (fun _ => 0) 1 0 42 "test"
        [[[1]]] [[[3]]] [2] [5] ∧
    eval_throughput 1 1 "Test" false [[[1]]] [[[3]]] 0 [0] =
      eval_throughput 1 1 "test" false [[[1]]] [[[3]]] 0 [0] :=
  ⟨(unknown_dataset_selects_test "Test" (by decide)).1 ⟨0⟩ (fun _ => [1]) (fun _ => 0)
      1 0 42 [[[1]]] [[[3]]] [2] [5],
   (unknown_dataset_selects_test "Test" (by decide)).2 1 1 false [[[1]]] [[[3]]] 0 [0]⟩

/-- The driver's while loop adds exactly `batch_size` to the counter for
each clock reading within `end_time`, and appends exactly one batch per
such reading. -/
theorem throughput_loop_spec (data : List (List ℚ)) (bs : ℕ) (et : ℚ) :
    ∀ (clock : List ℚ) (n : ℕ) (sent : List (List (List ℚ))),
      (throughput_loop data bs et clock n sent).1 =
        n + bs * (clock.takeWhile fun t => decide (t ≤ et)).length ∧
      (throughput_loop data bs et clock n sent).2.length =
        sent.length + (clock.takeWhile fun t => decide (t ≤ et)).length := by
  intro clock
  induction clock with
  | nil =>
    intro n sent
    simp [throughput_loop]
  | cons t rest ih =>
    intro n sent
    by_cases ht : t ≤ et
    · have h1 := ih (n + bs) (sent ++ [(data.drop n).take bs])
      simp only [throughput_loop, if_pos ht]
      rw [h1.1, h1.2]
      simp [List.takeWhile_cons, ht, Nat.mul_add, Nat.mul_succ]
      constructor <;> ring
    · simp [throughput_loop, List.takeWhile_cons, ht]

/-- Shared consequence of `throughput_loop_spec` at the driver level:
rate, per-iteration counting and batch count. -/
theorem eval_throughput_spec (duration : ℚ) (bs : ℕ) (ds : String) (ug : Bool)
    (xtr xte : List (List (List ℚ))) (now : ℚ) (clock : List ℚ) :
    (eval_throughput duration bs ds ug xtr xte now clock).2.1 =
      ((eval_throughput duration bs ds ug xtr xte now clock).1 : ℚ) / duration ∧
    (eval_throughput duration bs ds ug xtr xte now clock).1 =
      bs * (clock.takeWhile fun t => decide (t ≤ now + duration)).length ∧
    (eval_throughput duration bs ds ug xtr xte now clock).1 =
      (eval_throughput duration bs ds ug xtr xte now clock).2.2.length * bs := by
  cases ug <;>
    · simp only [eval_throughput]
      have h := throughput_loop_spec
        ((select_dataset ds xtr xte).map fun img => (img.flatten).map fun p => p / 255)
        bs (now + duration) clock 0 []
      refine ⟨by trivial, ?_, ?_⟩
      · rw [h.1]
        simp
      · rw [h.1, h.2]
        simp [Nat.mul_comm]

/-- C4: the throughput driver's counter grows by exactly `batch_size` on
each loop iteration — one iteration per clock reading at or before the end
timestamp — and the returned rate is exactly `num_reqs / duration`. -/
theorem eval_throughput_counting (duration : ℚ) (bs : ℕ) (ds : String) (ug : Bool)
    (xtr xte : List (List (List ℚ))) (now : ℚ) (clock : List ℚ) :
    (eval_throughput duration bs ds ug xtr xte now clock).2.1 =
      ((eval_throughput duration bs ds ug xtr xte now clock).1 : ℚ) / duration ∧
    (eval_throughput duration bs ds ug xtr xte now clock).1 =
      bs * (clock.takeWhile fun t => decide (t ≤ now + duration)).length :=
  ⟨(eval_throughput_spec duration bs ds ug xtr xte now clock).1,
   (eval_throughput_spec duration bs ds ug xtr xte now clock).2.1⟩

/-- C10: the total request count is always a multiple of `batch_size`
(hence a non-negative integer multiple), and a concrete run on a
one-image split with `batch_size = 2` and two in-window clock readings
sends one short batch and one empty batch yet reports `num_reqs = 4`,
exceeding the single example actually sent. -/
theorem num_reqs_batch_multiple_overrun :
    (∀ (duration : ℚ) (bs : ℕ) (ds : String) (ug : Bool)
        (xtr xte : List (List (List ℚ))) (now : ℚ) (clock : List ℚ),
        bs ∣ (eval_throughput duration bs ds ug xtr xte now clock).1) ∧
    ((eval_throughput 1 2 "test" false [] [[[(51 : ℚ)]]] 0 [0, 1/2, 2]).1 = 4 ∧
      (eval_throughput 1 2 "test" false [] [[[(51 : ℚ)]]] 0 [0, 1/2, 2]).2.2 =
        [[[(1/5 : ℚ)]], []] ∧
      (((eval_throughput 1 2 "test" false [] [[[(51 : ℚ)]]] 0
          [0, 1/2, 2]).2.2.map List.length).sum = 1 ∧
      1 < (eval_throughput 1 2 "test" false [] [[[(51 : ℚ)]]] 0
          [0, 1/2, 2]).1)) := by
  have hsel : ∀ {α : Type} (a b : α), select_dataset "test" a b = b := by
    intro α a b
    simp [select_dataset]
  constructor
  · intro duration bs ds ug xtr xte now clock
    rw [(eval_throughput_spec duration bs ds ug xtr xte now clock).2.1]
    exact Dvd.intro _ rfl
  · refine ⟨?_, ?_, ?_, ?_⟩ <;> norm_num [eval_throughput, throughput_loop, hsel]

/-- Everything drawn without replacement comes from the pool. -/
theorem choice_no_replace_subset (n : ℕ) :
    ∀ (g : GlobalRng) (pool : List ℕ), (choice_no_replace g pool n).1 ⊆ pool := by
  induction n with
  | zero =>
    intro g pool x hx
    simp [choice_no_replace] at hx
  | succ n ih =>
    intro g pool x hx
    match pool with
    | [] => simp [choice_no_replace] at hx
    | a :: l =>
      simp only [choice_no_replace] at hx
      rcases List.mem_cons.mp hx with h | h
      · subst h
        have hk : g.state % (a :: l).length < (a :: l).length := by
          apply Nat.mod_lt
          simp
        rw [List.getD_eq_getElem _ _ hk]
        exact List.getElem_mem hk
      · exact List.eraseIdx_subset _ _ (ih _ _ h)

/-- Drawing without replacement yields `min n poolSize` elements. -/
theorem choice_no_replace_length (n : ℕ) :
    ∀ (g : GlobalRng) (pool : List ℕ),
      (choice_no_replace g pool n).1.length = min n pool.length := by
  induction n with
  | zero =>
    intro g pool
    simp [choice_no_replace]
  | succ n ih =>
    intro g pool
    match pool with
    | [] => simp [choice_no_replace]
    | a :: l =>
      have hk : g.state % (a :: l).length < (a :: l).length := by
        apply Nat.mod_lt
        simp
      have hA : 0 < (a :: l).length := by simp
      simp only [choice_no_replace]
      rw [List.length_cons, ih, List.length_eraseIdx, if_pos hk]
      omega

/-- Drawing without replacement from a duplicate-free pool yields distinct
elements. -/
theorem choice_no_replace_nodup (n : ℕ) :
    ∀ (g : GlobalRng) (pool : List ℕ), pool.Nodup →
      (choice_no_replace g pool n).1.Nodup := by
  induction n with
  | zero =>
    intro g pool _
    simp [choice_no_replace]
  | succ n ih =>
    intro g pool hnd
    match pool with
    | [] => simp [choice_no_replace]
    | a :: l =>
      simp only [choice_no_replace]
      have hk : g.state % (a :: l).length < (a :: l).length := by
        apply Nat.mod_lt
        simp
      refine List.nodup_cons.mpr ⟨?_, ih _ _ (((a :: l).eraseIdx_sublist _).nodup hnd)⟩
      intro hmem
      have hmem2 : (a :: l).getD (GlobalRng.state g % (a :: l).length) 0 ∈
          (a :: l).eraseIdx (GlobalRng.state g % (a :: l).length) :=
        choice_no_replace_subset n _ _ hmem
      rw [List.getD_eq_getElem _ _ hk] at hmem2
      rw [List.mem_eraseIdx_iff_getElem] at hmem2
      obtain ⟨i, hi, hne, heq⟩ := hmem2
      exact hne ((List.Nodup.getElem_inj_iff hnd).mp heq)

/-- C5: for a fixed seed and split, the evaluator's sampled index sequence
is identical across runs — whatever the prior global RNG state, endpoint,
timings or print count — and consists of `n_examples` distinct in-range
indices drawn without replacement. -/
theorem eval_sampling_deterministic (g1 g2 : GlobalRng)
    (ep1 ep2 : List ℚ → List ℚ) (el1 el2 : ℕ → ℚ) (np1 np2 n seed : ℕ)
    (ds : String) (xtr xte : List (List (List ℚ))) (ytr yte : List ℤ)
    (h : n ≤ (select_dataset ds xtr xte).length) :
    (eval_serving_performance g1 ep1 el1 n np1 seed ds xtr xte ytr yte).sampled =
      (eval_serving_performance g2 ep2 el2 n np2 seed ds xtr xte ytr yte).sampled ∧
    (eval_serving_performance g1 ep1 el1 n np1 seed ds xtr xte ytr yte).sampled.Nodup ∧
    (eval_serving_performance g1 ep1 el1 n np1 seed ds xtr xte ytr yte).sampled.length = n ∧
    ∀ i ∈ (eval_serving_performance g1 ep1 el1 n np1 seed ds xtr xte ytr yte).sampled,
      i < (select_dataset ds xtr xte).length := by
  refine ⟨rfl, ?_, ?_, ?_⟩
  · exact choice_no_replace_nodup n _ _ (List.nodup_range _)
  · show (choice_no_replace (np_random_seed seed)
        (List.range (select_dataset ds xtr xte).length) n).1.length = n
    rw [choice_no_replace_length, List.length_range]
    exact Nat.min_eq_left h
  · intro i hi
    exact List.mem_range.mp (choice_no_replace_subset n _ _ hi)

/-- Witness for C5: two runs from different prior RNG states, endpoints and
clocks, seed 42, on a four-image test split. -/
theorem eval_sampling_deterministic_witness :
    (eval_serving_performance ⟨0⟩ (fun _ => [1]) (fun _ => 0) 3 0 42 "test"
        [] [[[0]], [[0]], [[0]], [[0]]] [] [1, 2, 3, 4]).sampled =
      (eval_serving_performance ⟨999⟩ (fun _ => [2]) (fun _ => 1) 3 5 42 "test"
        [] [[[0]], [[0]], [[0]], [[0]]] [] [1, 2, 3, 4]).sampled ∧
    (eval_serving_performance ⟨0⟩ (fun _ => [1]) (fun _ => 0) 3 0 42 "test"
        [] [[[0]], [[0]], [[0]], [[0]]] [] [1, 2, 3, 4]).sampled.Nodup ∧
    (eval_serving_performance ⟨0⟩ (fun _ => [1]) (fun _ => 0) 3 0 42 "test"
        [] [[[0]], [[0]], [[0]], [[0]]] [] [1, 2, 3, 4]).sampled.length = 3 ∧
    ∀ i ∈ (eval_serving_performance ⟨0⟩ (fun _ => [1]) (fun _ => 0) 3 0 42 "test"
        [] [[[0]], [[0]], [[0]], [[0]]] [] [1, 2, 3, 4]).sampled,
      i < (select_dataset "test" ([] : List (List (List ℚ)))
        [[[0]], [[0]], [[0]], [[0]]]).length :=
  eval_sampling_deterministic ⟨0⟩ ⟨999⟩ (fun _ => [1]) (fun _ => [2]) (fun _ => 0)
    (fun _ => 1) 0 5 3 42 "test" [] [[[0]], [[0]], [[0]], [[0]]] [] [1, 2, 3, 4]
    (by simp [select_dataset])

/-- Invariant of the `np_argmax` scan: processing the remaining scores
after a prefix `seen` whose best-so-far is a strict maximum of the prefix
before it and a weak maximum of the whole prefix yields the index of the
first occurrence of the maximum of `seen ++ xs`. -/
theorem argmax_go_spec (xs : List ℚ) :
    ∀ (seen : List ℚ) (best_i : ℕ) (best_v : ℚ),
      best_i < seen.length →
      seen.getD best_i 0 = best_v →
      (∀ k, k < seen.length → seen.getD k 0 ≤ best_v) →
      (∀ k, k < best_i → seen.getD k 0 < best_v) →
      argmax_go xs seen.length best_i best_v < (seen ++ xs).length ∧
      (∀ k, k < (seen ++ xs).length →
        (seen ++ xs).getD k 0 ≤
          (seen ++ xs).getD (argmax_go xs seen.length best_i best_v) 0) ∧
      (∀ k, k < argmax_go xs seen.length best_i best_v →
        (seen ++ xs).getD k 0 <
          (seen ++ xs).getD (argmax_go xs seen.length best_i best_v) 0) := by
  induction xs with
  | nil =>
    intro seen best_i best_v hbi hbv hle hlt
    simp only [argmax_go, List.append_nil]
    rw [hbv]
    exact ⟨hbi, hle, hlt⟩
  | cons x xs ih =>
    intro seen best_i best_v hbi hbv hle hlt
    have happ : seen ++ x :: xs = (seen ++ [x]) ++ xs := by simp
    have hlen : (seen ++ [x]).length = seen.length + 1 := by simp
    have hgx : (seen ++ [x]).getD seen.length 0 = x := by
      rw [List.getD_append_right _ _ _ _ (le_refl _)]
      simp
    simp only [argmax_go]
    by_cases hx : best_v < x
    · rw [if_pos hx, happ, ← hlen]
      apply ih (seen ++ [x]) seen.length x
      · simp
      · exact hgx
      · intro k hk
        rw [hlen] at hk
        by_cases hk2 : k < seen.length
        · rw [List.getD_append _ _ _ _ hk2]
          exact le_trans (hle k hk2) (le_of_lt hx)
        · have hk3 : k = seen.length := by omega
          subst hk3
          rw [hgx]
      · intro k hk
        rw [List.getD_append _ _ _ _ hk]
        exact lt_of_le_of_lt (hle k hk) hx
    · rw [if_neg hx, happ, ← hlen]
      apply ih (seen ++ [x]) best_i best_v
      · omega
      · rw [List.getD_append _ _ _ _ hbi]
        exact hbv
      · intro k hk
        rw [hlen] at hk
        by_cases hk2 : k < seen.length
        · rw [List.getD_append _ _ _ _ hk2]
          exact hle k hk2
        · have hk3 : k = seen.length := by omega
          subst hk3
          rw [hgx]
          exact not_lt.mp hx
      · intro k hk
        rw [List.getD_append _ _ _ _ (lt_trans hk hbi)]
        exact hlt k hk

/-- `np_argmax` of a nonempty score vector is an in-range index of a weak
maximum that every earlier score is strictly below: the first occurrence
of the maximum. -/
theorem np_argmax_spec (scores : List ℚ) (h : scores ≠ []) :
    np_argmax scores < scores.length ∧
    (∀ k, k < scores.length → scores.getD k 0 ≤ scores.getD (np_argmax scores) 0) ∧
    (∀ k, k < np_argmax scores → scores.getD k 0 < scores.getD (np_argmax scores) 0) := by
  match scores with
  | [] => exact absurd rfl h
  | x :: xs =>
    have h1 := argmax_go_spec xs [x] 0 x (by simp) (by simp)
      (by
        intro k hk
        simp only [List.length_singleton] at hk
        have hk0 : k = 0 := by omega
        subst hk0
        simp)
      (by
        intro k hk
        omega)
    simpa [np_argmax] using h1

/-- The accuracy accumulator's fold is a count. -/
theorem foldl_count_acc {α : Type} (p : α → Prop) [DecidablePred p] (l : List α) :
    ∀ a : ℕ, l.foldl (fun acc r => if p r then acc + 1 else acc) a =
      a + l.countP fun r => decide (p r) := by
  induction l with
  | nil =>
    intro a
    simp
  | cons x xs ih =>
    intro a
    by_cases hx : p x <;> simp [List.countP_cons, hx, ih] <;> omega

/-- C6: every prediction is `np_argmax` of the returned score vector —
the in-range first occurrence of the maximum score — and the printed
accuracy is exactly the count of samples whose prediction equals the
ground-truth label, divided by `n_examples`. -/
theorem eval_argmax_accuracy (g : GlobalRng) (ep : List ℚ → List ℚ) (el : ℕ → ℚ)
    (n np seed : ℕ) (ds : String) (xtr xte : List (List (List ℚ)))
    (ytr yte : List ℤ) (hn : 0 < n) :
    (∀ s : List ℚ, s ≠ [] →
      np_argmax s < s.length ∧
      (∀ k, k < s.length → s.getD k 0 ≤ s.getD (np_argmax s) 0) ∧
      (∀ k, k < np_argmax s → s.getD k 0 < s.getD (np_argmax s) 0)) ∧
    (eval_serving_performance g ep el n np seed ds xtr xte ytr yte).preds =
      (eval_serving_performance g ep el n np seed ds xtr xte ytr yte).sampled.map
        (fun idx => np_argmax (ep
          (((select_dataset ds xtr xte).getD idx []).flatten.map fun p => p / 255))) ∧
    (eval_serving_performance g ep el n np seed ds xtr xte ytr yte).accPrint =
      Except.ok
        (((((eval_serving_performance g ep el n np seed ds xtr xte ytr yte).sampled.zip
            (eval_serving_performance g ep el n np seed ds xtr xte ytr yte).preds).countP
            fun p => decide ((p.2 : ℤ) = (select_dataset ds ytr yte).getD p.1 0)) : ℚ) /
          (n : ℚ)) := by
  refine ⟨fun s hs => np_argmax_spec s hs, rfl, ?_⟩
  have hacc : (eval_serving_performance g ep el n np seed ds xtr xte ytr yte).acc =
      ((eval_serving_performance g ep el n np seed ds xtr xte ytr yte).sampled.zip
        (eval_serving_performance g ep el n np seed ds xtr xte ytr yte).preds).countP
        fun p => decide ((p.2 : ℤ) = (select_dataset ds ytr yte).getD p.1 0) := by
    rw [show (eval_serving_performance g ep el n np seed ds xtr xte ytr yte).acc =
        ((eval_serving_performance g ep el n np seed ds xtr xte ytr yte).sampled.zip
          (eval_serving_performance g ep el n np seed ds xtr xte ytr yte).preds).foldl
          (fun a r => if (r.2 : ℤ) = (select_dataset ds ytr yte).getD r.1 0 then a + 1
            else a) 0 from rfl]
    rw [foldl_count_acc]
    simp
  have hn' : ((n : ℚ)) ≠ 0 := by
    exact_mod_cast hn.ne'
  rw [show (eval_serving_performance g ep el n np seed ds xtr xte ytr yte).accPrint =
      pyDiv ((eval_serving_performance g ep el n np seed ds xtr xte ytr yte).acc : ℚ)
        (n : ℚ) from rfl]
  rw [hacc]
  simp [pyDiv, hn']

/-- Witness for C6 at a concrete two-example run. -/
theorem eval_argmax_accuracy_witness :
    (∀ s : List ℚ, s ≠ [] →
      np_argmax s < s.length ∧
      (∀ k, k < s.length → s.getD k 0 ≤ s.getD (np_argmax s) 0) ∧
      (∀ k, k < np_argmax s → s.getD k 0 < s.getD (np_argmax s) 0)) ∧
    (eval_serving_performance ⟨0⟩ (fun _ => [1, 5, 5]) (fun _ => 0) 2 0 42 "test"
        [] [[[0]], [[0]]] [] [1, 1]).preds =
      (eval_serving_performance ⟨0⟩ (fun _ => [1, 5, 5]) (fun _ => 0) 2 0 42 "test"
        [] [[[0]], [[0]]] [] [1, 1]).sampled.map
        (fun idx => np_argmax ((fun _ => [1, 5, 5])
          (((select_dataset "test" ([] : List (List (List ℚ)))
            [[[0]], [[0]]]).getD idx []).flatten.map fun p => p / 255))) ∧
    (eval_serving_performance ⟨0⟩ (fun _ => [1, 5, 5]) (fun _ => 0) 2 0 42 "test"
        [] [[[0]], [[0]]] [] [1, 1]).accPrint =
      Except.ok
        (((((eval_serving_performance ⟨0⟩ (fun _ => [1, 5, 5]) (fun _ => 0) 2 0 42 "test"
            [] [[[0]], [[0]]] [] [1, 1]).sampled.zip
            (eval_serving_performance ⟨0⟩ (fun _ => [1, 5, 5]) (fun _ => 0) 2 0 42 "test"
            [] [[[0]], [[0]]] [] [1, 1]).preds).countP
            fun p => decide ((p.2 : ℤ) =
              (select_dataset "test" ([] : List ℤ) [1, 1]).getD p.1 0)) : ℚ) / (2 : ℕ)) :=
  eval_argmax_accuracy ⟨0⟩ (fun _ => [1, 5, 5]) (fun _ => 0) 2 0 42 "test"
    [] [[[0]], [[0]]] [] [1, 1] (by decide)

/-- C1: the loader's reshape of each split's flat per-image pixel storage
into 28×28 follows the archive's column-major traversal — pixel
`(row i, col j)` is flat entry `i + 28*j` — which is precisely the
transpose of what the naive row-major reshape would produce (so the naive
reshape would transpose every image), and `load_emnist` applies this
reshape to both the training and the test images whenever it loads the
archive. -/
theorem load_emnist_colmajor_reshape :
    (∀ (flat : List ℚ) (i j : ℕ), i < 28 → j < 28 →
      ((reshape_colmajor flat).getD i []).getD j 0 = flat.getD (i + 28 * j) 0) ∧
    (∀ flat : List ℚ, reshape_colmajor flat = transpose_img (reshape_rowmajor flat)) ∧
    (∀ a : EmnistArchive,
      (parse_emnist a).x_train = a.trainImgs.map reshape_colmajor ∧
      (parse_emnist a).x_test = a.testImgs.map reshape_colmajor) ∧
    (∀ (fs : FolderState) (folder : String) (download : Bool),
      fs.folderExists = true → fs.fileExists = true →
      load_emnist fs folder download = Except.ok (parse_emnist fs.archive)) := by
  refine ⟨?_, ?_, ?_, ?_⟩
  · intro flat i j hi hj
    unfold reshape_colmajor
    rw [getD_map_range _ _ hi, getD_map_range _ _ hj]
  · intro flat
    unfold reshape_colmajor transpose_img
    apply List.map_congr_left
    intro i hi
    apply List.map_congr_left
    intro j hj
    rw [List.mem_range] at hi hj
    unfold reshape_rowmajor
    rw [getD_map_range _ _ hj, getD_map_range _ _ hi]
    congr 1
    ring
  · intro a
    exact ⟨rfl, rfl⟩
  · intro fs folder download hdir hfile
    simp [load_emnist, hdir, hfile]

/-- Witness for C1: pixel `(5, 3)` of the reshaped sample image is flat
entry `5 + 28*3 = 89`, the reshape is the transpose of the naive one, and
a present-file load applies it to both splits. -/
theorem load_emnist_colmajor_reshape_witness :
    (((reshape_colmajor ((List.range 784).map fun k => (k : ℚ))).getD 5 []).getD 3 0 =
      ((List.range 784).map fun k => (k : ℚ)).getD (5 + 28 * 3) 0) ∧
    reshape_colmajor ((List.range 784).map fun k => (k : ℚ)) =
      transpose_img (reshape_rowmajor ((List.range 784).map fun k => (k : ℚ))) ∧
    load_emnist ⟨true, true, sampleArchive⟩ "emnist_data/" false =
      Except.ok (parse_emnist sampleArchive) ∧
    (parse_emnist sampleArchive).x_train = sampleArchive.trainImgs.map reshape_colmajor :=
  ⟨load_emnist_colmajor_reshape.1 ((List.range 784).map fun k => (k : ℚ)) 5 3
      (by decide) (by decide),
   load_emnist_colmajor_reshape.2.1 ((List.range 784).map fun k => (k : ℚ)),
   load_emnist_colmajor_reshape.2.2.2 ⟨true, true, sampleArchive⟩ "emnist_data/" false
      rfl rfl,
   (load_emnist_colmajor_reshape.2.2.1 sampleArchive).1⟩

end EmnistUtils
